import Mathlib

/-!
Verification development for the better-auth-razorpay plugin.

The definitions below are a shallow embedding of the subscription
reconciliation core: the create-or-update, cancel, restore, list and webhook
endpoints, and the sign-up provisioning hook.  External effects (the Razorpay
SDK, HMAC, JSON serialization, id generation, the clock) are passed in as
explicit oracle arguments; the persistence adapter is a list of records with
first-match find and update, matching the adapter contract the endpoints rely
on.  Timestamps are epoch milliseconds as natural numbers.
-/

namespace BetterAuthRazorpay

/-- Local subscription status vocabulary (lib/types.ts, SubscriptionStatus). -/
inductive SubStatus where
  | created
  | active
  | pending
  | halted
  | cancelled
  | completed
  | expired
  | trialing
deriving DecidableEq, Repr

/-- Local subscription record stored through the auth adapter (lib/types.ts).
Optional fields keep their nullable shape; timestamps are epoch milliseconds. -/
structure SubscriptionRecord where
  id : String
  plan : String
  planId : Option String := none
  referenceId : String
  razorpayCustomerId : Option String := none
  razorpaySubscriptionId : Option String := none
  status : SubStatus
  trialStart : Option Nat := none
  trialEnd : Option Nat := none
  periodStart : Option Nat := none
  periodEnd : Option Nat := none
  cancelAtPeriodEnd : Bool := false
  seats : Nat := 1
  groupId : Option String := none
  createdAt : Nat := 0
  updatedAt : Nat := 0
deriving DecidableEq, Repr

/-- Razorpay subscription entity as consumed by the endpoints (lib/types.ts). -/
structure RazorpaySub where
  id : String
  plan_id : String := ""
  status : String
  current_start : Option Nat := none
  current_end : Option Nat := none
  ended_at : Option Nat := none
  short_url : String := ""
deriving DecidableEq, Repr

/-- User record as read by the endpoints (lib/types.ts RazorpayUserRecord). -/
structure RzUser where
  id : String
  razorpayCustomerId : Option String := none
deriving DecidableEq, Repr

/-- JavaScript truthiness of a nullable string: non-null and non-empty. -/
def strOptTruthy : Option String → Bool
  | some s => s ≠ ""
  | none => false

/-- JavaScript truthiness of a nullable number: non-null and non-zero. -/
def natOptTruthy : Option Nat → Bool
  | some n => n ≠ 0
  | none => false

/-- Status translation map shared by create-or-update-subscription.ts and
webhook.ts (both define the same toLocalStatus); unmapped statuses fall back
to pending. -/
def toLocalStatus (razorpayStatus : String) : SubStatus :=
  if razorpayStatus = "created" then .created
  else if razorpayStatus = "authenticated" then .pending
  else if razorpayStatus = "active" then .active
  else if razorpayStatus = "pending" then .pending
  else if razorpayStatus = "halted" then .halted
  else if razorpayStatus = "cancelled" then .cancelled
  else if razorpayStatus = "completed" then .completed
  else if razorpayStatus = "expired" then .expired
  else .pending

/-- The subscription model of the persistence adapter. -/
abbrev Store := List SubscriptionRecord

/-- adapter.update on the subscription model: rewrites the first matching
record, leaves the rest untouched. -/
def updateFirst (p : SubscriptionRecord → Bool)
    (f : SubscriptionRecord → SubscriptionRecord) : Store → Store
  | [] => []
  | r :: rs => if p r then f r :: rs else r :: updateFirst p f rs

/-- The ids of all records in a store. -/
def idsOf (s : Store) : List String := s.map (fun r => r.id)

/-- Live statuses used by the create-or-update duplicate check
(api/create-or-update-subscription.ts, activeStatuses). -/
def activeStatuses : List SubStatus :=
  [.active, .trialing, .pending, .created, .halted]

/-- A record that carries a provider subscription id and a live status. -/
def isLivePaid (r : SubscriptionRecord) : Bool :=
  decide (r.status ∈ activeStatuses) && strOptTruthy r.razorpaySubscriptionId

/-- Number of live paid records owned by a reference. -/
def countLivePaid (ref : String) (s : Store) : Nat :=
  s.countP (fun r => r.referenceId == ref && isLivePaid r)

/-- The records of a reference (adapter.findMany where referenceId). -/
def subsOf (userId : String) (s : Store) : Store :=
  s.filter (fun r => r.referenceId == userId)

/-- The active paid subscriptions of a reference (live status and a linked
provider subscription). -/
def activePaidSubsOf (userId : String) (s : Store) : Store :=
  (subsOf userId s).filter isLivePaid

/-- The app-level trial records of a reference (trialing, no provider id). -/
def appTrialSubsOf (userId : String) (s : Store) : Store :=
  (subsOf userId s).filter
    (fun r => r.status == SubStatus.trialing && !strOptTruthy r.razorpaySubscriptionId)

/-- Named plan configuration (lib/types.ts RazorpayPlan). -/
structure RazorpayPlan where
  name : String
  monthlyPlanId : String
  annualPlanId : Option String := none
deriving DecidableEq, Repr

/-- The startsWith check of the plan selector heuristic, realized over the
character lists of the strings so that concrete instances evaluate. -/
def startsWithPlanTag (s : String) : Bool :=
  "plan_".toList.isPrefixOf s.toList

/-- Plan lookup from create-or-update-subscription.ts: a selector with the
provider plan-id shape is matched against the monthly or annual provider id,
any other selector against the exact display name. -/
def resolvePlan (plans : List RazorpayPlan) (sel : String) : Option RazorpayPlan :=
  if startsWithPlanTag sel then
    plans.find? (fun p => p.monthlyPlanId == sel || p.annualPlanId == some sel)
  else
    plans.find? (fun p => p.name == sel)

/-- Effective provider plan id: the annual id when the annual flag is set and
the annual id is truthy, otherwise the monthly id. -/
def effectivePlanId (plan : RazorpayPlan) (annual : Bool) : String :=
  if annual && strOptTruthy plan.annualPlanId then plan.annualPlanId.getD ""
  else plan.monthlyPlanId

/-- Parsed request body of create-or-update (lib/schemas.ts defaults). -/
structure CoUBody where
  plan : String
  annual : Bool := false
  seats : Nat := 1
  subscriptionId : Option String := none
  successUrl : Option String := none
  disableRedirect : Bool := false
  embed : Bool := false
deriving DecidableEq, Repr

/-- Plugin subscription options consumed by create-or-update.  The
authorizeReference hook receives the caller id and the target reference; the
getSubscriptionCreateParams hook is modelled by the extra notes it merges into
the provider payload. -/
structure CoUOptions where
  enabled : Bool
  plans : List RazorpayPlan
  authorizeReference : Option (String → String → Bool) := none
  extraNotes : Option (List (String × String)) := none

/-- Error codes surfaced by the endpoints; razorpayError stands for any thrown
provider or adapter error after classification by handleRazorpayError. -/
inductive ErrCode where
  | SUBSCRIPTION_DISABLED
  | PLAN_NOT_FOUND
  | UNAUTHORIZED
  | USER_NOT_FOUND
  | FORBIDDEN
  | SUBSCRIPTION_NOT_FOUND
  | ALREADY_SUBSCRIBED
  | INVALID_TRIAL
  | CREATE_FAILED
  | INVALID_STATE
  | razorpayError
deriving DecidableEq, Repr

/-- Provider subscription-creation payload (plan id, billing cycles, seats,
notifications and notes). -/
structure SubscriptionCreatePayload where
  plan_id : String
  total_count : Nat
  quantity : Nat
  customer_notify : Bool := true
  notes : List (String × String)
deriving DecidableEq, Repr

/-- Snapshot returned by the update path of create-or-update. -/
structure SubscriptionSnapshot where
  id : String
  plan : String
  planId : Option String
  status : SubStatus
  razorpaySubscriptionId : Option String
  cancelAtPeriodEnd : Bool
  periodEnd : Option Nat
  seats : Nat
deriving DecidableEq, Repr

/-- Result of a create-or-update call. -/
inductive CoUResult where
  | err (code : ErrCode)
  | snapshot (checkoutUrl : Option String) (sub : SubscriptionSnapshot)
  | createdR (checkoutUrl : Option String) (subscriptionId razorpaySubscriptionId : String)
deriving DecidableEq, Repr

/-- Outcome of a create-or-update call: the response, the resulting store, and
the provider interactions that happened (fetch flag, creation payload). -/
structure CoUOutcome where
  result : CoUResult
  store : Store
  fetchCalled : Bool
  createCall : Option SubscriptionCreatePayload
deriving DecidableEq, Repr

/-- Checkout url of the creation paths: omitted for embedded checkout, the
bare short url when redirect is disabled or no success url is given, otherwise
the short url with an encoded redirect parameter. -/
def checkoutUrlFor (encode : String → String) (body : CoUBody) (shortUrl : String) :
    Option String :=
  if body.embed then none
  else if body.disableRedirect then some shortUrl
  else if strOptTruthy body.successUrl then
    some (shortUrl ++ "?redirect=" ++ encode (body.successUrl.getD ""))
  else some shortUrl

/-- Field overwrite of the in-place trial upgrade (create-or-update step for a
found app-level trial). -/
def upgradeTrialFields (planName planId rpId : String) (newStatus : SubStatus)
    (periodStart periodEnd : Option Nat) (seats now : Nat)
    (r : SubscriptionRecord) : SubscriptionRecord :=
  { r with
    plan := planName
    planId := some planId
    razorpaySubscriptionId := some rpId
    status := newStatus
    trialEnd := some now
    periodStart := periodStart
    periodEnd := periodEnd
    seats := seats
    updatedAt := now }

/-- Fresh record built by the creation path of create-or-update. -/
def newSubscriptionRecord (newId planName planId userId : String)
    (customerId : Option String) (rpId : String) (newStatus : SubStatus)
    (periodStart periodEnd : Option Nat) (seats now : Nat) : SubscriptionRecord :=
  { id := newId
    plan := planName
    planId := some planId
    referenceId := userId
    razorpayCustomerId := customerId
    razorpaySubscriptionId := some rpId
    status := newStatus
    trialStart := none
    trialEnd := none
    periodStart := periodStart
    periodEnd := periodEnd
    cancelAtPeriodEnd := false
    seats := seats
    groupId := none
    createdAt := now
    updatedAt := now }

/-- Period bound taken from a provider timestamp: a Date from seconds when the
value is truthy, null otherwise. -/
def periodOfOpt (o : Option Nat) : Option Nat :=
  if natOptTruthy o then some (o.getD 0 * 1000) else none

/-- Shared tail of create-or-update: the duplicate check against live paid
subscriptions, the provider creation call, then either the in-place trial
upgrade or a fresh local record.  The primary key of the trial is its id
(the Mongo fallback key of getPrimaryKey is not populated in this model, so
an empty id stands for a missing primary key). -/
def createFlow (opts : CoUOptions) (encode : String → String)
    (userId : String) (user : RzUser) (plan : RazorpayPlan)
    (createRes : Except Unit RazorpaySub) (newId : String) (now : Nat)
    (body : CoUBody) (store : Store) : CoUOutcome :=
  let planId := effectivePlanId plan body.annual
  if (activePaidSubsOf userId store).length > 0 then
    ⟨.err .ALREADY_SUBSCRIBED, store, false, none⟩
  else
    let appTrialSubs := appTrialSubsOf userId store
    let appTrialSub : Option SubscriptionRecord :=
      if appTrialSubs.length == 1 then appTrialSubs.head? else none
    let payload : SubscriptionCreatePayload :=
      { plan_id := planId
        total_count := if body.annual then 1 else 12
        quantity := body.seats
        notes := [("referenceId", userId), ("planName", plan.name)]
          ++ (opts.extraNotes.getD []) }
    match createRes with
    | .error _ => ⟨.err .razorpayError, store, false, some payload⟩
    | .ok rp =>
      let periodStart := periodOfOpt rp.current_start
      let periodEnd := periodOfOpt rp.current_end
      let newStatus := toLocalStatus rp.status
      match appTrialSub with
      | some trial =>
        if trial.id == "" then
          ⟨.err .INVALID_TRIAL, store, false, some payload⟩
        else
          let store2 := updateFirst (fun r => r.id == trial.id)
            (upgradeTrialFields plan.name planId rp.id newStatus periodStart periodEnd
              body.seats now) store
          ⟨.createdR (checkoutUrlFor encode body rp.short_url) trial.id rp.id,
            store2, false, some payload⟩
      | none =>
        let newRec := newSubscriptionRecord newId plan.name planId userId
          user.razorpayCustomerId rp.id newStatus periodStart periodEnd body.seats now
        let store2 := store ++ [newRec]
        if newId == "" then
          ⟨.err .CREATE_FAILED, store2, false, some payload⟩
        else
          ⟨.createdR (checkoutUrlFor encode body rp.short_url) newId rp.id,
            store2, false, some payload⟩

/-- Update path of create-or-update: when the body carries a local
subscription id, load it, check ownership, and when it already has a linked
provider subscription return a snapshot of the current provider state;
otherwise fall through to the shared creation flow. -/
def updatePathOrFlow (opts : CoUOptions) (encode : String → String)
    (userId : String) (user : RzUser) (plan : RazorpayPlan)
    (fetchRes createRes : Except Unit RazorpaySub) (newId : String) (now : Nat)
    (body : CoUBody) (store : Store) : CoUOutcome :=
  if strOptTruthy body.subscriptionId then
    let sid := body.subscriptionId.getD ""
    match store.find? (fun r => r.id == sid) with
    | none => ⟨.err .SUBSCRIPTION_NOT_FOUND, store, false, none⟩
    | some existing =>
      if existing.referenceId ≠ userId then
        ⟨.err .FORBIDDEN, store, false, none⟩
      else if strOptTruthy existing.razorpaySubscriptionId then
        match fetchRes with
        | .error _ => ⟨.err .razorpayError, store, true, none⟩
        | .ok rp =>
          ⟨.snapshot (if body.embed then none else some rp.short_url)
            ⟨existing.id, existing.plan, existing.planId, existing.status,
              existing.razorpaySubscriptionId, existing.cancelAtPeriodEnd,
              existing.periodEnd, existing.seats⟩,
            store, true, none⟩
      else
        createFlow opts encode userId user plan createRes newId now body store
  else
    createFlow opts encode userId user plan createRes newId now body store

/-- The create-or-update endpoint (api/create-or-update-subscription.ts).
The provider calls are oracles: fetchRes answers subscriptions.fetch on the
update path and createRes answers subscriptions.create; an error value stands
for a thrown SDK call routed to handleRazorpayError. -/
def createOrUpdateSubscription (opts : CoUOptions) (encode : String → String)
    (sessionUserId : Option String) (users : List RzUser)
    (fetchRes createRes : Except Unit RazorpaySub) (newId : String) (now : Nat)
    (body : CoUBody) (store : Store) : CoUOutcome :=
  if !opts.enabled then ⟨.err .SUBSCRIPTION_DISABLED, store, false, none⟩
  else
    match resolvePlan opts.plans body.plan with
    | none => ⟨.err .PLAN_NOT_FOUND, store, false, none⟩
    | some plan =>
      match sessionUserId with
      | none => ⟨.err .UNAUTHORIZED, store, false, none⟩
      | some userId =>
        match users.find? (fun u => u.id == userId) with
        | none => ⟨.err .USER_NOT_FOUND, store, false, none⟩
        | some user =>
          let allowed := match opts.authorizeReference with
            | some f => f userId userId
            | none => true
          if !allowed then ⟨.err .FORBIDDEN, store, false, none⟩
          else
            updatePathOrFlow opts encode userId user plan fetchRes createRes
              newId now body store

/-- Result of a cancel call. -/
inductive CancelResult where
  | err (code : ErrCode)
  | ok (id status plan_id : String) (current_end ended_at : Option Nat)
deriving DecidableEq, Repr

/-- Outcome of a cancel call; providerCancelArgs records the provider cancel
invocation as (razorpay subscription id, cancel_at_cycle_end flag). -/
structure CancelOutcome where
  result : CancelResult
  store : Store
  providerCancelArgs : Option (String × Bool)
deriving DecidableEq, Repr

/-- The cancel endpoint (api/cancel-subscription.ts).  The record is loaded by
its local id; after a successful provider cancel the local update is issued
with a where clause on the razorpaySubscriptionId field carrying the local
subscription id, exactly as written in the source. -/
def cancelSubscription (sessionUserId : Option String)
    (cancelRes : Except Unit RazorpaySub)
    (subscriptionId : String) (immediately : Bool) (now : Nat)
    (store : Store) : CancelOutcome :=
  match sessionUserId with
  | none => ⟨.err .UNAUTHORIZED, store, none⟩
  | some userId =>
    match store.find? (fun r => r.id == subscriptionId) with
    | none => ⟨.err .SUBSCRIPTION_NOT_FOUND, store, none⟩
    | some record =>
      if record.referenceId ≠ userId then ⟨.err .FORBIDDEN, store, none⟩
      else if !strOptTruthy record.razorpaySubscriptionId then
        ⟨.err .INVALID_STATE, store, none⟩
      else
        let rpId := record.razorpaySubscriptionId.getD ""
        match cancelRes with
        | .error _ => ⟨.err .razorpayError, store, some (rpId, !immediately)⟩
        | .ok sub =>
          let store2 := updateFirst
            (fun r => r.razorpaySubscriptionId == some subscriptionId)
            (fun r => { r with cancelAtPeriodEnd := !immediately, updatedAt := now })
            store
          ⟨.ok sub.id sub.status sub.plan_id sub.current_end sub.ended_at,
            store2, some (rpId, !immediately)⟩

/-- Result of a restore call. -/
inductive RestoreResult where
  | err (code : ErrCode)
  | ok (id status : String)
deriving DecidableEq, Repr

/-- Outcome of a restore call with the provider operations that were invoked. -/
structure RestoreOutcome where
  result : RestoreResult
  store : Store
  calledCancelScheduledChanges : Bool
  calledResume : Bool
deriving DecidableEq, Repr

/-- The restore endpoint (api/restore-subscription.ts).  A record flagged
cancelAtPeriodEnd goes through cancelScheduledChanges; otherwise a halted
record goes through resume; every other record is rejected as INVALID_STATE
with no provider call.  The oracles answer the two provider operations with
an (id, status) pair or a thrown error. -/
def restoreSubscription (sessionUserId : Option String)
    (cancelScheduledRes resumeRes : Except Unit (String × String))
    (subscriptionId : String) (now : Nat) (store : Store) : RestoreOutcome :=
  match sessionUserId with
  | none => ⟨.err .UNAUTHORIZED, store, false, false⟩
  | some userId =>
    match store.find? (fun r => r.id == subscriptionId) with
    | none => ⟨.err .SUBSCRIPTION_NOT_FOUND, store, false, false⟩
    | some record =>
      if record.referenceId ≠ userId then ⟨.err .FORBIDDEN, store, false, false⟩
      else if !strOptTruthy record.razorpaySubscriptionId then
        ⟨.err .INVALID_STATE, store, false, false⟩
      else if record.cancelAtPeriodEnd then
        match cancelScheduledRes with
        | .error _ => ⟨.err .razorpayError, store, true, false⟩
        | .ok (sid, sstatus) =>
          let store2 := updateFirst (fun r => r.id == subscriptionId)
            (fun r => { r with cancelAtPeriodEnd := false, updatedAt := now }) store
          ⟨.ok sid sstatus, store2, true, false⟩
      else if record.status == SubStatus.halted then
        match resumeRes with
        | .error _ => ⟨.err .razorpayError, store, false, true⟩
        | .ok (sid, sstatus) =>
          let store2 := updateFirst (fun r => r.id == subscriptionId)
            (fun r => { r with cancelAtPeriodEnd := false, updatedAt := now }) store
          ⟨.ok sid sstatus, store2, false, true⟩
      else ⟨.err .INVALID_STATE, store, false, false⟩

/-- Live-status filter of the list endpoint (ACTIVE_STATUSES in the list
subscriptions source file). -/
def ACTIVE_STATUSES : List SubStatus := [.active, .trialing, .pending, .created]

/-- Result of a list call. -/
inductive ListResult where
  | err (code : ErrCode)
  | ok (subs : List SubscriptionRecord)
deriving DecidableEq, Repr

/-- The list endpoint: resolves the target reference (query referenceId or the
caller), runs the authorizeReference check only when listing a different
reference, then returns the records of the reference filtered to
ACTIVE_STATUSES. -/
def listSubscriptions (authorizeReference : Option (String → String → Bool))
    (sessionUserId : Option String) (users : List RzUser)
    (queryReferenceId : Option String) (store : Store) : ListResult :=
  match sessionUserId with
  | none => .err .UNAUTHORIZED
  | some userId =>
    let referenceId := queryReferenceId.getD userId
    let listed : ListResult :=
      .ok ((store.filter (fun r => r.referenceId == referenceId)).filter
        (fun r => decide (r.status ∈ ACTIVE_STATUSES)))
    if referenceId ≠ userId ∧ authorizeReference.isSome then
      match users.find? (fun u => u.id == userId) with
      | none => .err .USER_NOT_FOUND
      | some _ =>
        if !(authorizeReference.getD (fun _ _ => true)) userId referenceId then
          .err .FORBIDDEN
        else listed
    else listed

/-- Nested subscription entity of a webhook payload (webhook.ts). -/
structure SubscriptionEntity where
  id : String
  plan_id : String := ""
  status : String := ""
  current_start : Option Nat := none
  current_end : Option Nat := none
deriving DecidableEq, Repr

/-- Payment entity optionally attached to a webhook payload. -/
structure PaymentEntity where
  id : String
  amount : Nat
  currency : Option String := none
deriving DecidableEq, Repr

/-- The payload object of a webhook envelope; absent nested entities model
missing keys in the delivered JSON. -/
structure WebhookPayload where
  subscription : Option SubscriptionEntity := none
  payment : Option PaymentEntity := none
deriving DecidableEq, Repr

/-- A parsed webhook envelope; event or payload may be missing. -/
structure WebhookData where
  event : Option String := none
  payload : Option WebhookPayload := none
deriving DecidableEq, Repr

/-- Events with a handler in the eventHandlers table of webhook.ts. -/
def eventHandled (event : String) : Bool :=
  event == "subscription.authenticated" || event == "subscription.activated" ||
  event == "subscription.charged" || event == "subscription.cancelled" ||
  event == "subscription.paused" || event == "subscription.resumed" ||
  event == "subscription.pending" || event == "subscription.halted" ||
  event == "subscription.expired"

/-- Target local status per handled event (eventHandlers table). -/
def eventStatus (event : String) : SubStatus :=
  if event = "subscription.authenticated" then .pending
  else if event = "subscription.activated" then .active
  else if event = "subscription.charged" then .active
  else if event = "subscription.cancelled" then .cancelled
  else if event = "subscription.paused" then .halted
  else if event = "subscription.resumed" then .active
  else if event = "subscription.pending" then .pending
  else if event = "subscription.halted" then .halted
  else .expired

/-- Record update applied by a status handler: the target status, the period
bounds when the entity carries truthy values, the cancelled handler clearing
cancelAtPeriodEnd, and a refreshed updatedAt.  Update keys carrying an
undefined value (the charged handler with a falsy current_end) are treated as
absent, as the adapter skips undefined fields. -/
def eventRecordUpdate (event : String) (sub : SubscriptionEntity) (now : Nat)
    (r : SubscriptionRecord) : SubscriptionRecord :=
  { r with
    status := eventStatus event
    periodStart :=
      if natOptTruthy sub.current_start then some (sub.current_start.getD 0 * 1000)
      else r.periodStart
    periodEnd :=
      if natOptTruthy sub.current_end then some (sub.current_end.getD 0 * 1000)
      else r.periodEnd
    cancelAtPeriodEnd :=
      if event = "subscription.cancelled" then false else r.cancelAtPeriodEnd
    updatedAt := now }

/-- The optional webhook callbacks threaded through the plugin options.  A
configured callback is modelled by some flag whose value says whether the
invocation throws; subscriptionConfigured mirrors whether pluginOptions
carries a subscription options object at all. -/
structure WebhookCallbacks where
  onEvent : Option Bool := none
  subscriptionConfigured : Bool := false
  onSubscriptionActivated : Option Bool := none
  onSubscriptionCancel : Option Bool := none
  onSubscriptionUpdate : Option Bool := none
  onWebhookEvent : Option Bool := none
deriving DecidableEq, Repr

/-- Outcome of a webhook delivery: the response with a tag discriminating the
rejection branch (the dev and production message texts are elided), the
resulting store, and the callbacks that were invoked in order. -/
structure WebhookOutcome where
  success : Bool
  messageTag : Option String := none
  store : Store
  invoked : List String := []
deriving DecidableEq, Repr

/-- The callback fan-out of a processed webhook event, in invocation order:
the global per-event callback, then exactly one of the activation,
cancellation or generic-update callbacks, then the legacy payload callback
(which first loads the user and is skipped when the user is absent).  Whether
a configured callback throws does not appear here: every invocation sits in
its own try/catch whose error is dropped. -/
def invokedCallbacks (cfg : WebhookCallbacks) (users : List RzUser)
    (event : String) (record : SubscriptionRecord) : List String :=
  let inv1 : List String := match cfg.onEvent with
    | some _ => ["onEvent"]
    | none => []
  let inv2 : List String :=
    if cfg.subscriptionConfigured then
      if event == "subscription.activated" &&
          cfg.onSubscriptionActivated.isSome then
        ["onSubscriptionActivated"]
      else if (event == "subscription.cancelled" ||
          event == "subscription.expired") &&
          cfg.onSubscriptionCancel.isSome then
        ["onSubscriptionCancel"]
      else if cfg.onSubscriptionUpdate.isSome then
        ["onSubscriptionUpdate"]
      else []
    else []
  let inv3 : List String := match cfg.onWebhookEvent with
    | some _ =>
      match users.find? (fun u => u.id == record.referenceId) with
      | some _ => ["onWebhookEvent"]
      | none => []
    | none => []
  inv1 ++ inv2 ++ inv3

/-- Webhook event processing after signature verification (webhook.ts
processWebhookEvent): envelope parse from the raw body with the framework body
as fallback, record lookup by provider subscription id, dispatch, state
update, then the callback fan-out.  Every callback invocation sits in its own
try/catch whose error is discarded, so a throwing callback leaves the store,
the response and the remaining invocations unchanged. -/
def processWebhookEvent (cfg : WebhookCallbacks) (users : List RzUser)
    (parse : String → Option WebhookData) (rawBody : String)
    (fallbackBody : WebhookData) (now : Nat) (store : Store) : WebhookOutcome :=
  let webhookData? : Option WebhookData :=
    if rawBody ≠ "" then parse rawBody else some fallbackBody
  match webhookData? with
  | none => ⟨false, some "processing-failed", store, []⟩
  | some wd =>
    if !strOptTruthy wd.event || wd.payload.isNone then
      ⟨false, some "invalid-payload", store, []⟩
    else
      let event := wd.event.getD ""
      match (wd.payload.getD {}).subscription with
      | none => ⟨false, some "missing-subscription", store, []⟩
      | some sub =>
        match store.find? (fun r => r.razorpaySubscriptionId == some sub.id) with
        | none => ⟨false, some "record-not-found", store, []⟩
        | some record =>
          if record.referenceId == "" then
            ⟨false, some "missing-referenceId", store, []⟩
          else if !eventHandled event then
            ⟨false, some "unhandled-event", store, []⟩
          else
            ⟨true, none,
              updateFirst (fun r => r.razorpaySubscriptionId == some sub.id)
                (eventRecordUpdate event sub now) store,
              invokedCallbacks cfg users event record⟩

/-- Raw body resolution (webhook.ts getRawBody): the cloned request text when
the request is present and its text is readable and non-empty, otherwise the
JSON serialization of the framework-parsed fallback body.  The request
argument is none when no request object exists, some none when reading the
text throws, and some (some t) for a readable raw text t. -/
def getRawBody (serialize : WebhookData → String)
    (request : Option (Option String)) (fallbackBody : WebhookData) : String :=
  match request with
  | none => serialize fallbackBody
  | some none => serialize fallbackBody
  | some (some text) => if text == "" then serialize fallbackBody else text

/-- Signature check (webhook.ts verifySignature): exact string equality with
the hex HMAC-SHA256 of the raw body under the secret; hmacHex secret message
stands for the crypto primitive. -/
def verifySignature (hmacHex : String → String → String)
    (rawBody signature secret : String) : Bool :=
  signature == hmacHex secret rawBody

/-- The webhook endpoint (webhook.ts): refuse without a configured secret,
refuse without a signature header, refuse on signature mismatch over the raw
body, and only then process the event. -/
def webhook (hmacHex : String → String → String) (serialize : WebhookData → String)
    (parse : String → Option WebhookData)
    (webhookSecret signatureHeader : Option String)
    (request : Option (Option String)) (fallbackBody : WebhookData)
    (cfg : WebhookCallbacks) (users : List RzUser) (now : Nat)
    (store : Store) : WebhookOutcome :=
  if !strOptTruthy webhookSecret then
    ⟨false, some "secret-not-configured", store, []⟩
  else if !strOptTruthy signatureHeader then
    ⟨false, some "missing-signature", store, []⟩
  else
    let secret := webhookSecret.getD ""
    let signature := signatureHeader.getD ""
    let rawBody := getRawBody serialize request fallbackBody
    if !verifySignature hmacHex rawBody signature secret then
      ⟨false, some "invalid-signature", store, []⟩
    else
      processWebhookEvent cfg users parse rawBody fallbackBody now store

/-- Sign-up trial configuration (trialOnSignUp plugin option). -/
structure TrialOnSignUp where
  days : Nat
  planName : Option String := none
deriving DecidableEq, Repr

/-- The principal handed to the user-create database hook. -/
structure SignUpUser where
  id : String
  name : Option String := none
  email : Option String := none
deriving DecidableEq, Repr

/-- adapter.update on the user model: first matching user gets the customer
id persisted. -/
def persistCustomerId (uid cid : String) : List RzUser → List RzUser
  | [] => []
  | u :: us =>
    if u.id == uid then { u with razorpayCustomerId := some cid } :: us
    else u :: persistCustomerId uid cid us

/-- The app-level trial record created at sign-up: trialing status, trial
window of the configured day count, customer linkage but no provider
subscription. -/
def signUpTrialRecord (t : TrialOnSignUp) (userId cid newId : String)
    (now : Nat) : SubscriptionRecord :=
  { id := newId
    plan := t.planName.getD "Trial"
    planId := none
    referenceId := userId
    razorpayCustomerId := some cid
    razorpaySubscriptionId := none
    status := .trialing
    trialStart := some now
    trialEnd := some (now + t.days * 86400000)
    periodStart := none
    periodEnd := none
    cancelAtPeriodEnd := false
    seats := 1
    groupId := none
    createdAt := now
    updatedAt := now }

/-- The user-create after hook installed when createCustomerOnSignUp is set:
create the provider customer, persist its id on the user, run the optional
onCustomerCreate callback, and create the app-level trial record when a trial
configuration with a positive day count is present.  The whole body sits in
one try/catch, so any thrown step leaves the hook returning the states
written so far and never propagates.  Oracles: customerCreateRes answers
customers.create with the new customer id, userUpdateOk and subCreateOk say
whether the two adapter writes succeed, onCustomerCreate is the configured
callback with its throw flag. -/
def razorpaySignUpHook (trialOnSignUp : Option TrialOnSignUp)
    (onCustomerCreate : Option Bool)
    (customerCreateRes : Except Unit String)
    (userUpdateOk subCreateOk : Bool)
    (user : SignUpUser) (newId : String) (now : Nat)
    (users : List RzUser) (store : Store) : List RzUser × Store :=
  match customerCreateRes with
  | .error _ => (users, store)
  | .ok cid =>
    if !userUpdateOk then (users, store)
    else
      let users2 := persistCustomerId user.id cid users
      if onCustomerCreate == some true then (users2, store)
      else
        match trialOnSignUp with
        | some t =>
          if t.days > 0 then
            if !subCreateOk then (users2, store)
            else (users2, store ++ [signUpTrialRecord t user.id cid newId now])
          else (users2, store)
        | none => (users2, store)

/-- The plugin installs the sign-up hook only when createCustomerOnSignUp is
set; otherwise sign-up leaves both models untouched. -/
def razorpayPluginSignUp (createCustomerOnSignUp : Bool)
    (trialOnSignUp : Option TrialOnSignUp) (onCustomerCreate : Option Bool)
    (customerCreateRes : Except Unit String) (userUpdateOk subCreateOk : Bool)
    (user : SignUpUser) (newId : String) (now : Nat)
    (users : List RzUser) (store : Store) : List RzUser × Store :=
  if createCustomerOnSignUp then
    razorpaySignUpHook trialOnSignUp onCustomerCreate customerCreateRes
      userUpdateOk subCreateOk user newId now users store
  else (users, store)

/-- One create-or-update call of a sequence: the caller session, the provider
oracles, the generated id, the clock and the request body. -/
structure CoUCall where
  sessionUserId : Option String
  fetchRes : Except Unit RazorpaySub
  createRes : Except Unit RazorpaySub
  newId : String
  now : Nat
  body : CoUBody

/-- Store reached by running a sequence of create-or-update calls. -/
def runCalls (opts : CoUOptions) (encode : String → String) (users : List RzUser) :
    List CoUCall → Store → Store
  | [], s => s
  | c :: cs, s =>
    runCalls opts encode users cs
      (createOrUpdateSubscription opts encode c.sessionUserId users c.fetchRes
        c.createRes c.newId c.now c.body s).store

/-- Each generated id of a call sequence is fresh for the store it is handed
to (the adapter generates record ids, so they never collide with stored ones). -/
def freshIds (opts : CoUOptions) (encode : String → String) (users : List RzUser) :
    List CoUCall → Store → Bool
  | [], _ => true
  | c :: cs, s =>
    decide (c.newId ∉ idsOf s) &&
      freshIds opts encode users cs
        (createOrUpdateSubscription opts encode c.sessionUserId users c.fetchRes
          c.createRes c.newId c.now c.body s).store

lemma updateFirst_length (p : SubscriptionRecord → Bool)
    (f : SubscriptionRecord → SubscriptionRecord) (s : Store) :
    (updateFirst p f s).length = s.length := by
  induction s with
  | nil => rfl
  | cons r rs ih => by_cases h : p r <;> simp [updateFirst, h, ih]

lemma idsOf_updateFirst (p : SubscriptionRecord → Bool)
    (f : SubscriptionRecord → SubscriptionRecord)
    (hf : ∀ r, (f r).id = r.id) (s : Store) :
    idsOf (updateFirst p f s) = idsOf s := by
  induction s with
  | nil => rfl
  | cons r rs ih =>
    by_cases h : p r = true
    · simp [updateFirst, idsOf, h, hf]
    · simp only [updateFirst, if_neg h, idsOf, List.map_cons]
      simpa [idsOf] using ih

lemma find?_updateFirst (p : SubscriptionRecord → Bool)
    (f : SubscriptionRecord → SubscriptionRecord)
    (hp : ∀ r, p (f r) = p r) (s : Store) :
    (updateFirst p f s).find? p = (s.find? p).map f := by
  induction s with
  | nil => rfl
  | cons r rs ih =>
    by_cases h : p r = true
    · rw [updateFirst, if_pos h]
      rw [List.find?_cons_of_pos _ ((hp r).trans h), List.find?_cons_of_pos _ h]
      rfl
    · rw [updateFirst, if_neg h]
      rw [List.find?_cons_of_neg _ h, List.find?_cons_of_neg _ h, ih]

lemma updateFirst_updateFirst (p : SubscriptionRecord → Bool)
    (f g : SubscriptionRecord → SubscriptionRecord)
    (hp : ∀ r, p (g r) = p r) (hfg : ∀ r, f (g r) = f r) (s : Store) :
    updateFirst p f (updateFirst p g s) = updateFirst p f s := by
  induction s with
  | nil => rfl
  | cons r rs ih =>
    by_cases h : p r
    · simp [updateFirst, h, hp, hfg]
    · simp [updateFirst, h, ih]

lemma updateFirst_decomp (p : SubscriptionRecord → Bool)
    (f : SubscriptionRecord → SubscriptionRecord) :
    ∀ {s : Store} {a : SubscriptionRecord}, s.find? p = some a →
    ∃ s₁ s₂, s = s₁ ++ a :: s₂ ∧ (∀ b ∈ s₁, p b = false) ∧
      updateFirst p f s = s₁ ++ f a :: s₂ := by
  intro s
  induction s with
  | nil => intro a h; simp at h
  | cons r rs ih =>
    intro a h
    by_cases hr : p r
    · rw [List.find?_cons_of_pos _ hr] at h
      obtain rfl : r = a := by injection h
      exact ⟨[], rs, rfl, by simp, by simp [updateFirst, hr]⟩
    · rw [List.find?_cons_of_neg _ (by simpa using hr)] at h
      obtain ⟨s₁, s₂, hs, hall, hupd⟩ := ih h
      refine ⟨r :: s₁, s₂, by simp [hs], ?_, by simp [updateFirst, hr, hupd]⟩
      intro b hb
      rcases List.mem_cons.mp hb with rfl | hb₂
      · simpa using hr
      · exact hall b hb₂

lemma find?_id_of_nodup {s : Store} {a : SubscriptionRecord}
    (hNd : (idsOf s).Nodup) (ha : a ∈ s) :
    s.find? (fun r => r.id == a.id) = some a := by
  induction s with
  | nil => simp at ha
  | cons r rs ih =>
    have hnd : r.id ∉ idsOf rs ∧ (idsOf rs).Nodup := by
      simpa [idsOf] using List.nodup_cons.mp hNd
    rcases List.mem_cons.mp ha with rfl | ha₂
    · exact List.find?_cons_of_pos _ (by simp)
    · have hr : (r.id == a.id) = false := by
        simp only [beq_eq_false_iff_ne, ne_eq]
        intro hEq
        exact hnd.1 (hEq ▸ List.mem_map_of_mem (fun x => x.id) ha₂)
      rw [List.find?_cons]
      simp only [hr, cond_false]
      exact ih hnd.2 ha₂

lemma eq_singleton_of_len_head {l : Store} {a : SubscriptionRecord}
    (h1 : l.length = 1) (h2 : l.head? = some a) : l = [a] := by
  cases l with
  | nil => simp at h1
  | cons x t =>
    cases t with
    | nil => simp at h2; simp [h2]
    | cons y u => simp at h1

/-- The predicate counted by countLivePaid. -/
def livePred (ref : String) (r : SubscriptionRecord) : Bool :=
  r.referenceId == ref && isLivePaid r

lemma countLivePaid_def (ref : String) (s : Store) :
    countLivePaid ref s = s.countP (livePred ref) := rfl

lemma activePaidSubsOf_filter (u : String) (s : Store) :
    activePaidSubsOf u s = s.filter (livePred u) := by
  induction s with
  | nil => rfl
  | cons r rs ih =>
    by_cases h1 : (r.referenceId == u) = true
    · by_cases h2 : isLivePaid r = true
      · simp only [activePaidSubsOf, subsOf] at ih ⊢
        simp [List.filter_cons, livePred, h1, h2, ih]
      · simp only [activePaidSubsOf, subsOf] at ih ⊢
        simp [List.filter_cons, livePred, h1, h2, ih]
    · simp only [activePaidSubsOf, subsOf] at ih ⊢
      simp [List.filter_cons, livePred, h1, ih]

lemma countLivePaid_eq_len (u : String) (s : Store) :
    countLivePaid u s = (activePaidSubsOf u s).length := by
  rw [activePaidSubsOf_filter, countLivePaid_def, List.countP_eq_length_filter]

lemma appTrial_mem {u : String} {s : Store} {trial : SubscriptionRecord}
    (h : appTrialSubsOf u s = [trial]) :
    trial ∈ s ∧ trial.referenceId = u ∧
      strOptTruthy trial.razorpaySubscriptionId = false := by
  have hm : trial ∈ appTrialSubsOf u s := by simp [h]
  simp only [appTrialSubsOf, subsOf, List.mem_filter] at hm
  obtain ⟨⟨hmem, hrefb⟩, hflt⟩ := hm
  refine ⟨hmem, by simpa using hrefb, ?_⟩
  have := (Bool.and_eq_true _ _).mp hflt
  simpa using this.2

lemma upgrade_preserves {store : Store} {userId : String} {trial : SubscriptionRecord}
    {g : SubscriptionRecord → SubscriptionRecord}
    (hid : ∀ r, (g r).id = r.id) (href : ∀ r, (g r).referenceId = r.referenceId)
    (hNd : (idsOf store).Nodup)
    (hTrial : appTrialSubsOf userId store = [trial])
    (hLive : (activePaidSubsOf userId store).length = 0)
    (hInv : ∀ ref, countLivePaid ref store ≤ 1) :
    (∀ ref, countLivePaid ref (updateFirst (fun r => r.id == trial.id) g store) ≤ 1) ∧
    (idsOf (updateFirst (fun r => r.id == trial.id) g store)).Nodup := by
  obtain ⟨hmem, hrefu, -⟩ := appTrial_mem hTrial
  have hfind := find?_id_of_nodup hNd hmem
  obtain ⟨s₁, s₂, hs, -, hupd⟩ := updateFirst_decomp _ g hfind
  have hzero : countLivePaid userId store = 0 := by
    rw [countLivePaid_eq_len, hLive]
  constructor
  · intro ref
    rw [countLivePaid_def] at hzero ⊢
    rw [hupd, List.countP_append, List.countP_cons]
    by_cases hre : ref = userId
    · subst hre
      rw [hs, List.countP_append, List.countP_cons] at hzero
      have h1 : s₁.countP (livePred ref) = 0 := by omega
      have h2 : s₂.countP (livePred ref) = 0 := by omega
      rw [h1, h2]
      by_cases hga : livePred ref (g trial) = true <;> simp [hga]
    · have hgt : livePred ref (g trial) = false := by
        simp only [livePred, Bool.and_eq_false_iff]
        left
        rw [href, hrefu]
        simpa using fun hEq => hre hEq.symm
      have htr : livePred ref trial = false := by
        simp only [livePred, Bool.and_eq_false_iff]
        left
        rw [hrefu]
        simpa using fun hEq => hre hEq.symm
      rw [hgt]
      have := hInv ref
      rw [countLivePaid_def, hs, List.countP_append, List.countP_cons, htr] at this
      simpa using this
  · rw [idsOf_updateFirst _ _ hid]
    exact hNd

lemma append_preserves {store : Store} {userId : String} {rec : SubscriptionRecord}
    (hrefu : rec.referenceId = userId)
    (hLive : (activePaidSubsOf userId store).length = 0)
    (hInv : ∀ ref, countLivePaid ref store ≤ 1)
    (hNd : (idsOf store).Nodup) (hFresh : rec.id ∉ idsOf store) :
    (∀ ref, countLivePaid ref (store ++ [rec]) ≤ 1) ∧
    (idsOf (store ++ [rec])).Nodup := by
  constructor
  · intro ref
    rw [countLivePaid_def, List.countP_append]
    by_cases hre : ref = userId
    · subst hre
      have hzero : store.countP (livePred ref) = 0 := by
        have := countLivePaid_eq_len ref store
        rw [hLive, countLivePaid_def] at this
        exact this
      rw [hzero]
      simpa using List.countP_le_length _
    · have hr0 : livePred ref rec = false := by
        simp only [livePred, Bool.and_eq_false_iff]
        left
        rw [hrefu]
        simpa using fun hEq => hre hEq.symm
      have := hInv ref
      rw [countLivePaid_def] at this
      simpa [hr0] using this
  · have : idsOf (store ++ [rec]) = idsOf store ++ [rec.id] := by simp [idsOf]
    rw [this]
    refine List.Nodup.append hNd (List.nodup_singleton _) ?_
    intro x hx hx2
    simp only [List.mem_singleton] at hx2
    exact hFresh (hx2 ▸ hx)

lemma updatePath_no_sid (opts : CoUOptions) (encode : String → String)
    (userId : String) (user : RzUser) (plan : RazorpayPlan)
    (fetchRes createRes : Except Unit RazorpaySub) (newId : String) (now : Nat)
    (body : CoUBody) (store : Store)
    (hNoSid : body.subscriptionId = none) :
    updatePathOrFlow opts encode userId user plan fetchRes createRes
        newId now body store =
      createFlow opts encode userId user plan createRes newId now body store := by
  unfold updatePathOrFlow
  simp [hNoSid, strOptTruthy]

lemma createOrUpdate_reaches_flow (opts : CoUOptions) (encode : String → String)
    (userId : String) (users : List RzUser) (user : RzUser) (plan : RazorpayPlan)
    (fetchRes createRes : Except Unit RazorpaySub) (newId : String) (now : Nat)
    (body : CoUBody) (store : Store)
    (hEnabled : opts.enabled = true)
    (hPlan : resolvePlan opts.plans body.plan = some plan)
    (hUser : users.find? (fun u => u.id == userId) = some user)
    (hAuth : ∀ f, opts.authorizeReference = some f → f userId userId = true)
    (hNoSid : body.subscriptionId = none) :
    createOrUpdateSubscription opts encode (some userId) users fetchRes createRes
        newId now body store =
      createFlow opts encode userId user plan createRes newId now body store := by
  cases hao : opts.authorizeReference with
  | none =>
    unfold createOrUpdateSubscription
    simp only [hEnabled, hPlan, hUser, hao, Bool.not_true, Bool.false_eq_true, if_false]
    exact updatePath_no_sid opts encode userId user plan fetchRes createRes
      newId now body store hNoSid
  | some f =>
    have hf := hAuth f hao
    unfold createOrUpdateSubscription
    simp only [hEnabled, hPlan, hUser, hao, hf, Bool.not_true, Bool.false_eq_true, if_false]
    exact updatePath_no_sid opts encode userId user plan fetchRes createRes
      newId now body store hNoSid

lemma createFlow_already (opts : CoUOptions) (encode : String → String)
    (userId : String) (user : RzUser) (plan : RazorpayPlan)
    (createRes : Except Unit RazorpaySub) (newId : String) (now : Nat)
    (body : CoUBody) (store : Store)
    (hLive : 0 < (activePaidSubsOf userId store).length) :
    createFlow opts encode userId user plan createRes newId now body store =
      ⟨.err .ALREADY_SUBSCRIBED, store, false, none⟩ := by
  unfold createFlow
  rw [if_pos hLive]

lemma createFlow_trial (opts : CoUOptions) (encode : String → String)
    (userId : String) (user : RzUser) (plan : RazorpayPlan) (rp : RazorpaySub)
    (newId : String) (now : Nat) (body : CoUBody) (store : Store)
    (trial : SubscriptionRecord)
    (hLive : ¬ 0 < (activePaidSubsOf userId store).length)
    (hTrial : appTrialSubsOf userId store = [trial])
    (hTid : ¬ trial.id = "") :
    createFlow opts encode userId user plan (.ok rp) newId now body store =
      ⟨.createdR (checkoutUrlFor encode body rp.short_url) trial.id rp.id,
        updateFirst (fun r => r.id == trial.id)
          (upgradeTrialFields plan.name (effectivePlanId plan body.annual) rp.id
            (toLocalStatus rp.status) (periodOfOpt rp.current_start)
            (periodOfOpt rp.current_end) body.seats now) store,
        false,
        some { plan_id := effectivePlanId plan body.annual,
               total_count := if body.annual then 1 else 12,
               quantity := body.seats,
               notes := [("referenceId", userId), ("planName", plan.name)]
                 ++ opts.extraNotes.getD [] }⟩ := by
  unfold createFlow
  rw [if_neg hLive]
  simp [hTrial, hTid]

lemma createFlow_inv (opts : CoUOptions) (encode : String → String)
    (userId : String) (user : RzUser) (plan : RazorpayPlan)
    (createRes : Except Unit RazorpaySub) (newId : String) (now : Nat)
    (body : CoUBody) (store : Store)
    (hInv : ∀ ref, countLivePaid ref store ≤ 1)
    (hNd : (idsOf store).Nodup) (hFresh : newId ∉ idsOf store) :
    (∀ ref, countLivePaid ref
      (createFlow opts encode userId user plan createRes newId now body store).store ≤ 1) ∧
    (idsOf (createFlow opts encode userId user plan createRes newId now
      body store).store).Nodup := by
  unfold createFlow
  by_cases hpos : 0 < (activePaidSubsOf userId store).length
  · rw [if_pos hpos]
    exact ⟨hInv, hNd⟩
  · rw [if_neg hpos]
    have hLive : (activePaidSubsOf userId store).length = 0 := Nat.eq_zero_of_not_pos hpos
    cases createRes with
    | error e => exact ⟨hInv, hNd⟩
    | ok rp =>
      dsimp only
      cases htr : (if (appTrialSubsOf userId store).length == 1
          then (appTrialSubsOf userId store).head? else none) with
      | some trial =>
        have hTrial : appTrialSubsOf userId store = [trial] := by
          by_cases hlen : ((appTrialSubsOf userId store).length == 1) = true
          · rw [if_pos hlen] at htr
            exact eq_singleton_of_len_head (by simpa using hlen) htr
          · rw [if_neg hlen] at htr
            cases htr
        by_cases hTid : (trial.id == "") = true
        · simp only [hTid, if_true]
          exact ⟨hInv, hNd⟩
        · simp only [hTid, if_false]
          exact upgrade_preserves (fun r => rfl) (fun r => rfl) hNd hTrial hLive hInv
      | none =>
        by_cases hnew : (newId == "") = true
        · simp only [hnew, if_true]
          exact append_preserves rfl hLive hInv hNd hFresh
        · simp only [hnew, if_false]
          exact append_preserves rfl hLive hInv hNd hFresh

lemma updatePathOrFlow_inv (opts : CoUOptions) (encode : String → String)
    (userId : String) (user : RzUser) (plan : RazorpayPlan)
    (fetchRes createRes : Except Unit RazorpaySub) (newId : String) (now : Nat)
    (body : CoUBody) (store : Store)
    (hInv : ∀ ref, countLivePaid ref store ≤ 1)
    (hNd : (idsOf store).Nodup) (hFresh : newId ∉ idsOf store) :
    (∀ ref, countLivePaid ref
      (updatePathOrFlow opts encode userId user plan fetchRes createRes
        newId now body store).store ≤ 1) ∧
    (idsOf (updatePathOrFlow opts encode userId user plan fetchRes createRes
      newId now body store).store).Nodup := by
  unfold updatePathOrFlow
  by_cases hsid : strOptTruthy body.subscriptionId = true
  · rw [if_pos hsid]
    dsimp only
    cases hex : store.find? (fun r => r.id == body.subscriptionId.getD "") with
    | none => exact ⟨hInv, hNd⟩
    | some existing =>
      dsimp only
      by_cases hown : existing.referenceId ≠ userId
      · rw [if_pos hown]
        exact ⟨hInv, hNd⟩
      · rw [if_neg hown]
        by_cases hrp : strOptTruthy existing.razorpaySubscriptionId = true
        · rw [if_pos hrp]
          cases fetchRes with
          | error e => exact ⟨hInv, hNd⟩
          | ok rp => exact ⟨hInv, hNd⟩
        · rw [if_neg hrp]
          exact createFlow_inv opts encode userId user plan createRes newId now
            body store hInv hNd hFresh
  · rw [if_neg hsid]
    exact createFlow_inv opts encode userId user plan createRes newId now
      body store hInv hNd hFresh

set_option maxHeartbeats 1000000 in
lemma createOrUpdate_inv_step (opts : CoUOptions) (encode : String → String)
    (sess : Option String) (users : List RzUser)
    (fetchRes createRes : Except Unit RazorpaySub) (newId : String) (now : Nat)
    (body : CoUBody) (store : Store)
    (hInv : ∀ ref, countLivePaid ref store ≤ 1)
    (hNd : (idsOf store).Nodup) (hFresh : newId ∉ idsOf store) :
    (∀ ref, countLivePaid ref
      (createOrUpdateSubscription opts encode sess users fetchRes createRes
        newId now body store).store ≤ 1) ∧
    (idsOf (createOrUpdateSubscription opts encode sess users fetchRes createRes
      newId now body store).store).Nodup := by
  unfold createOrUpdateSubscription
  by_cases he : (!opts.enabled) = true
  · rw [if_pos he]
    exact ⟨hInv, hNd⟩
  · rw [if_neg he]
    cases hplan : resolvePlan opts.plans body.plan with
    | none => exact ⟨hInv, hNd⟩
    | some plan =>
      dsimp only
      cases sess with
      | none => exact ⟨hInv, hNd⟩
      | some userId =>
        dsimp only
        cases huser : users.find? (fun u => u.id == userId) with
        | none => exact ⟨hInv, hNd⟩
        | some user =>
          dsimp only
          by_cases hallow : (!(match opts.authorizeReference with
              | some f => f userId userId
              | none => true)) = true
          · rw [if_pos hallow]
            exact ⟨hInv, hNd⟩
          · rw [if_neg hallow]
            exact updatePathOrFlow_inv opts encode userId user plan fetchRes createRes
              newId now body store hInv hNd hFresh

lemma runCalls_inv (opts : CoUOptions) (encode : String → String) (users : List RzUser) :
    ∀ (calls : List CoUCall) (store : Store),
    (∀ ref, countLivePaid ref store ≤ 1) → (idsOf store).Nodup →
    freshIds opts encode users calls store = true →
    (∀ ref, countLivePaid ref (runCalls opts encode users calls store) ≤ 1) := by
  intro calls
  induction calls with
  | nil =>
    intro store hInv _ _
    simpa [runCalls] using hInv
  | cons c cs ih =>
    intro store hInv hNd hFresh
    rw [freshIds, Bool.and_eq_true, decide_eq_true_eq] at hFresh
    have step := createOrUpdate_inv_step opts encode c.sessionUserId users c.fetchRes
      c.createRes c.newId c.now c.body store hInv hNd hFresh.1
    rw [runCalls]
    exact ih _ step.1 step.2 hFresh.2

lemma createOrUpdate_already (opts : CoUOptions) (encode : String → String)
    (userId : String) (users : List RzUser) (user : RzUser) (plan : RazorpayPlan)
    (fetchRes createRes : Except Unit RazorpaySub) (newId : String) (now : Nat)
    (body : CoUBody) (store : Store)
    (hEnabled : opts.enabled = true)
    (hPlan : resolvePlan opts.plans body.plan = some plan)
    (hUser : users.find? (fun u => u.id == userId) = some user)
    (hAuth : ∀ f, opts.authorizeReference = some f → f userId userId = true)
    (hNoSid : body.subscriptionId = none)
    (hLive : 0 < (activePaidSubsOf userId store).length) :
    createOrUpdateSubscription opts encode (some userId) users fetchRes createRes
        newId now body store =
      ⟨.err .ALREADY_SUBSCRIBED, store, false, none⟩ := by
  rw [createOrUpdate_reaches_flow opts encode userId users user plan fetchRes createRes
    newId now body store hEnabled hPlan hUser hAuth hNoSid]
  exact createFlow_already opts encode userId user plan createRes newId now body store hLive

/-- C1: over any sequence of create-or-update calls, a store in which every
reference owns at most one record with a linked provider subscription id and a
live status keeps that property (given distinct record ids and adapter-fresh
generated ids); and a call that reaches the duplicate check (feature enabled,
plan resolved, user found, authorization passing, no subscriptionId in the
body) while an active paid record exists for the caller returns the
ALREADY_SUBSCRIBED error, performs no provider creation call, no provider
fetch, and leaves the store untouched. -/
theorem atMostOneLiveSubscription (opts : CoUOptions) (encode : String → String)
    (users : List RzUser) (calls : List CoUCall) (store : Store)
    (hInv : ∀ ref, countLivePaid ref store ≤ 1)
    (hNd : (idsOf store).Nodup)
    (hFresh : freshIds opts encode users calls store = true) :
    (∀ ref, countLivePaid ref (runCalls opts encode users calls store) ≤ 1) ∧
    (∀ (userId : String) (user : RzUser) (plan : RazorpayPlan) (body : CoUBody)
        (fetchRes createRes : Except Unit RazorpaySub) (newId : String) (now : Nat),
      opts.enabled = true →
      resolvePlan opts.plans body.plan = some plan →
      users.find? (fun u => u.id == userId) = some user →
      (∀ f, opts.authorizeReference = some f → f userId userId = true) →
      body.subscriptionId = none →
      0 < (activePaidSubsOf userId store).length →
      createOrUpdateSubscription opts encode (some userId) users fetchRes createRes
          newId now body store =
        ⟨.err .ALREADY_SUBSCRIBED, store, false, none⟩) := by
  refine ⟨runCalls_inv opts encode users calls store hInv hNd hFresh, ?_⟩
  intro userId user plan body fetchRes createRes newId now hEnabled hPlan hUser hAuth
    hNoSid hLive
  exact createOrUpdate_already opts encode userId users user plan fetchRes createRes
    newId now body store hEnabled hPlan hUser hAuth hNoSid hLive

/-- Concrete data for the C1 witness: one user owning one live paid record. -/
def c1plan : RazorpayPlan := { name := "Starter", monthlyPlanId := "plan_m1" }

def c1opts : CoUOptions := { enabled := true, plans := [c1plan] }

def c1liveRec : SubscriptionRecord :=
  { id := "s1", plan := "Starter", planId := some "plan_m1", referenceId := "u1",
    razorpaySubscriptionId := some "sub_1", status := .active }

def c1rp : RazorpaySub := { id := "sub_2", status := "created", short_url := "https://rzp.io/x" }

def c1call : CoUCall :=
  { sessionUserId := some "u1", fetchRes := .ok c1rp, createRes := .ok c1rp,
    newId := "s2", now := 5, body := { plan := "Starter" } }

theorem atMostOneLiveSubscription_witness :
    countLivePaid "u1" (runCalls c1opts id [⟨"u1", none⟩] [c1call] [c1liveRec]) ≤ 1 ∧
    createOrUpdateSubscription c1opts id (some "u1") [⟨"u1", none⟩] (.ok c1rp)
        (.ok c1rp) "s2" 5 { plan := "Starter" } [c1liveRec] =
      ⟨.err .ALREADY_SUBSCRIBED, [c1liveRec], false, none⟩ := by
  have h := atMostOneLiveSubscription c1opts id [⟨"u1", none⟩] [c1call] [c1liveRec]
    (fun ref => le_trans (List.countP_le_length _) (by decide))
    (by decide) (by decide)
  exact ⟨h.1 "u1",
    h.2 "u1" ⟨"u1", none⟩ c1plan { plan := "Starter" } (.ok c1rp) (.ok c1rp) "s2" 5
      rfl (by decide) (by decide) (by intro f hf; cases hf) rfl (by decide)⟩

lemma subsOf_updateFirst_len (p : SubscriptionRecord → Bool)
    (f : SubscriptionRecord → SubscriptionRecord)
    (hf : ∀ r, (f r).referenceId = r.referenceId) (ref : String) (s : Store) :
    (subsOf ref (updateFirst p f s)).length = (subsOf ref s).length := by
  induction s with
  | nil => rfl
  | cons r rs ih =>
    by_cases h : p r = true
    · rw [updateFirst, if_pos h]
      simp only [subsOf, List.filter_cons, hf]
      by_cases h2 : (r.referenceId == ref) = true
      · simp [h2]
      · simp [h2]
    · rw [updateFirst, if_neg h]
      simp only [subsOf, List.filter_cons] at ih ⊢
      by_cases h2 : (r.referenceId == ref) = true
      · simp [h2, ih]
      · simp [h2, ih]

/-- C4: with exactly one app-level trial record for the reference (trialing,
no provider subscription id) and no active paid record, a successful
create-or-update call without a subscriptionId in the body upgrades that
record in place: the result carries the trial record id, the store keeps its
length, the record now holds the provider subscription id, the new plan and
planId, the translated status, trialEnd set to now, the refreshed period
bounds and seats, and no reference gains or loses a record. -/
theorem trialUpgradeInPlace (opts : CoUOptions) (encode : String → String)
    (userId : String) (users : List RzUser) (user : RzUser) (plan : RazorpayPlan)
    (trial : SubscriptionRecord) (rp : RazorpaySub)
    (fetchRes : Except Unit RazorpaySub)
    (newId : String) (now : Nat) (body : CoUBody) (store : Store)
    (hEnabled : opts.enabled = true)
    (hPlan : resolvePlan opts.plans body.plan = some plan)
    (hUser : users.find? (fun u => u.id == userId) = some user)
    (hAuth : ∀ f, opts.authorizeReference = some f → f userId userId = true)
    (hNoSid : body.subscriptionId = none)
    (hTrial : appTrialSubsOf userId store = [trial])
    (hNoLive : ¬ 0 < (activePaidSubsOf userId store).length)
    (hNd : (idsOf store).Nodup)
    (hTid : ¬ trial.id = "") :
    (createOrUpdateSubscription opts encode (some userId) users fetchRes (.ok rp)
        newId now body store).result =
      .createdR (checkoutUrlFor encode body rp.short_url) trial.id rp.id ∧
    (createOrUpdateSubscription opts encode (some userId) users fetchRes (.ok rp)
        newId now body store).store.length = store.length ∧
    (createOrUpdateSubscription opts encode (some userId) users fetchRes (.ok rp)
        newId now body store).store.find? (fun r => r.id == trial.id) =
      some (upgradeTrialFields plan.name (effectivePlanId plan body.annual) rp.id
        (toLocalStatus rp.status) (periodOfOpt rp.current_start)
        (periodOfOpt rp.current_end) body.seats now trial) ∧
    (∀ ref, (subsOf ref (createOrUpdateSubscription opts encode (some userId) users
        fetchRes (.ok rp) newId now body store).store).length
      = (subsOf ref store).length) := by
  have heq := (createOrUpdate_reaches_flow opts encode userId users user plan fetchRes
      (.ok rp) newId now body store hEnabled hPlan hUser hAuth hNoSid).trans
    (createFlow_trial opts encode userId user plan rp newId now body store trial
      hNoLive hTrial hTid)
  rw [heq]
  obtain ⟨hmem, -, -⟩ := appTrial_mem hTrial
  dsimp only
  refine ⟨rfl, updateFirst_length _ _ _, ?_, ?_⟩
  · rw [find?_updateFirst (fun r => r.id == trial.id)
      (upgradeTrialFields plan.name (effectivePlanId plan body.annual) rp.id
        (toLocalStatus rp.status) (periodOfOpt rp.current_start)
        (periodOfOpt rp.current_end) body.seats now) (fun r => rfl) store,
      find?_id_of_nodup hNd hmem]
    rfl
  · intro ref
    exact subsOf_updateFirst_len (fun r => r.id == trial.id)
      (upgradeTrialFields plan.name (effectivePlanId plan body.annual) rp.id
        (toLocalStatus rp.status) (periodOfOpt rp.current_start)
        (periodOfOpt rp.current_end) body.seats now) (fun r => rfl) ref store

/-- Concrete data for the C4 witness: one app-level trial record. -/
def c4trial : SubscriptionRecord :=
  { id := "t1", plan := "Trial", referenceId := "u1", status := .trialing }

def c4rp : RazorpaySub :=
  { id := "sub_9", status := "created", short_url := "https://rzp.io/y",
    current_start := some 100, current_end := some 200 }

theorem trialUpgradeInPlace_witness :
    (createOrUpdateSubscription c1opts id (some "u1") [⟨"u1", none⟩] (.ok c1rp)
        (.ok c4rp) "s9" 7 { plan := "Starter" } [c4trial]).result =
      .createdR (checkoutUrlFor id { plan := "Starter" } c4rp.short_url)
        c4trial.id c4rp.id ∧
    (createOrUpdateSubscription c1opts id (some "u1") [⟨"u1", none⟩] (.ok c1rp)
        (.ok c4rp) "s9" 7 { plan := "Starter" } [c4trial]).store.find?
        (fun r => r.id == c4trial.id) =
      some (upgradeTrialFields c1plan.name (effectivePlanId c1plan false) c4rp.id
        (toLocalStatus c4rp.status) (periodOfOpt c4rp.current_start)
        (periodOfOpt c4rp.current_end) 1 7 c4trial) ∧
    (subsOf "u1" (createOrUpdateSubscription c1opts id (some "u1") [⟨"u1", none⟩]
        (.ok c1rp) (.ok c4rp) "s9" 7 { plan := "Starter" } [c4trial]).store).length
      = (subsOf "u1" [c4trial]).length := by
  have h := trialUpgradeInPlace c1opts id "u1" [⟨"u1", none⟩] ⟨"u1", none⟩ c1plan
    c4trial c4rp (.ok c1rp) "s9" 7 { plan := "Starter" } [c4trial]
    rfl (by decide) (by decide) (fun f hf => by cases hf) rfl (by decide) (by decide)
    (by decide) (by decide)
  exact ⟨h.1, h.2.2.1, h.2.2.2 "u1"⟩

/-- C5 (amended): for a restore call on an owned record with a linked provider
subscription, a record with cancelAtPeriodEnd set goes through the provider
cancel-scheduled-changes operation (and never resume) regardless of its
status; a record without that flag and with status halted goes through resume
(and never cancel-scheduled-changes); a record with neither returns the
INVALID_STATE error without invoking any provider operation. -/
theorem restoreBranchCorrectness (userId : String)
    (cancelScheduledRes resumeRes : Except Unit (String × String))
    (subscriptionId : String) (now : Nat) (store : Store)
    (record : SubscriptionRecord)
    (hFind : store.find? (fun r => r.id == subscriptionId) = some record)
    (hOwn : record.referenceId = userId)
    (hLinked : strOptTruthy record.razorpaySubscriptionId = true) :
    (record.cancelAtPeriodEnd = true →
      (restoreSubscription (some userId) cancelScheduledRes resumeRes
        subscriptionId now store).calledCancelScheduledChanges = true ∧
      (restoreSubscription (some userId) cancelScheduledRes resumeRes
        subscriptionId now store).calledResume = false) ∧
    (record.cancelAtPeriodEnd = false → record.status = SubStatus.halted →
      (restoreSubscription (some userId) cancelScheduledRes resumeRes
        subscriptionId now store).calledResume = true ∧
      (restoreSubscription (some userId) cancelScheduledRes resumeRes
        subscriptionId now store).calledCancelScheduledChanges = false) ∧
    (record.cancelAtPeriodEnd = false → record.status ≠ SubStatus.halted →
      restoreSubscription (some userId) cancelScheduledRes resumeRes
          subscriptionId now store =
        ⟨.err .INVALID_STATE, store, false, false⟩) := by
  have hOwn2 : ¬ record.referenceId ≠ userId := by simp [hOwn]
  refine ⟨?_, ?_, ?_⟩
  · intro hcape
    unfold restoreSubscription
    rw [hFind]
    dsimp only
    rw [if_neg hOwn2, if_neg (by simp [hLinked]), if_pos hcape]
    cases cancelScheduledRes with
    | error e => exact ⟨rfl, rfl⟩
    | ok pr => exact ⟨rfl, rfl⟩
  · intro hcape hhalt
    unfold restoreSubscription
    rw [hFind]
    dsimp only
    rw [if_neg hOwn2, if_neg (by simp [hLinked]), if_neg (by simp [hcape]),
      if_pos (by simp [hhalt])]
    cases resumeRes with
    | error e => exact ⟨rfl, rfl⟩
    | ok pr => exact ⟨rfl, rfl⟩
  · intro hcape hhalt
    unfold restoreSubscription
    rw [hFind]
    dsimp only
    rw [if_neg hOwn2, if_neg (by simp [hLinked]), if_neg (by simp [hcape]),
      if_neg (by simp [hhalt])]

/-- Concrete record for the C5 counterexample: cancelAtPeriodEnd is set while
the status is halted. -/
def c5rec : SubscriptionRecord :=
  { id := "s1", plan := "Starter", referenceId := "u1",
    razorpaySubscriptionId := some "sub_X", status := .halted,
    cancelAtPeriodEnd := true }

/-- C5 counterexample: a record with cancelAtPeriodEnd true and status halted
falls outside both branches named by the claim (cancelAtPeriodEnd true with
status active; status halted with cancelAtPeriodEnd false), so the claim
requires the INVALID_STATE error and no provider call; the code instead
invokes cancel-scheduled-changes and succeeds.  Under the claim reading where
status halted alone demands resume, the same input refutes that branch too,
since resume is not invoked. -/
theorem restoreBranch_counterexample :
    (restoreSubscription (some "u1") (.ok ("sub_X", "active"))
        (.ok ("sub_X", "active")) "s1" 0 [c5rec]).calledCancelScheduledChanges
      = true ∧
    (restoreSubscription (some "u1") (.ok ("sub_X", "active"))
        (.ok ("sub_X", "active")) "s1" 0 [c5rec]).calledResume = false ∧
    (restoreSubscription (some "u1") (.ok ("sub_X", "active"))
        (.ok ("sub_X", "active")) "s1" 0 [c5rec]).result ≠ .err .INVALID_STATE := by
  refine ⟨by decide, by decide, by decide⟩

theorem restoreBranchCorrectness_witness :
    ((restoreSubscription (some "u1") (.ok ("sub_X", "active"))
        (.ok ("sub_X", "active")) "s1" 0 [c5rec]).calledCancelScheduledChanges
      = true ∧
    (restoreSubscription (some "u1") (.ok ("sub_X", "active"))
        (.ok ("sub_X", "active")) "s1" 0 [c5rec]).calledResume = false) := by
  have h := restoreBranchCorrectness "u1" (.ok ("sub_X", "active"))
    (.ok ("sub_X", "active")) "s1" 0 [c5rec] c5rec
    (by decide) (by decide) (by decide)
  exact h.1 (by decide)

/-- Concrete data for the C6 evaluation: one owned record with a linked
provider subscription, loaded by its local id. -/
def c6rec : SubscriptionRecord :=
  { id := "local1", plan := "Starter", planId := some "plan_m1",
    referenceId := "u1", razorpaySubscriptionId := some "sub_X",
    status := .active, cancelAtPeriodEnd := false, updatedAt := 0 }

def c6rp : RazorpaySub :=
  { id := "sub_X", plan_id := "plan_m1", status := "cancelled" }

/-- C6: the cancel endpoint issues its local update with a where clause on the
razorpaySubscriptionId field carrying the local subscription id, so the record
that was loaded (id local1, provider id sub_X) matches nothing and is left
unchanged: after a successful provider cancel with immediately false, the
record still has cancelAtPeriodEnd false and its old updatedAt, although the
call succeeded and the provider was asked to cancel at cycle end. -/
theorem cancelUpdateMissesRecord :
    (cancelSubscription (some "u1") (.ok c6rp) "local1" false 99 [c6rec]).result =
      .ok "sub_X" "cancelled" "plan_m1" none none ∧
    (cancelSubscription (some "u1") (.ok c6rp) "local1" false 99
      [c6rec]).providerCancelArgs = some ("sub_X", true) ∧
    (cancelSubscription (some "u1") (.ok c6rp) "local1" false 99 [c6rec]).store
      = [c6rec] ∧
    c6rec.cancelAtPeriodEnd = false ∧ c6rec.updatedAt = 0 := by
  refine ⟨by decide, by decide, by decide, rfl, rfl⟩

/-- C2: when the webhook secret is not configured, the signature header is
missing, or the signature does not equal the HMAC of the raw body under the
secret, the webhook responds with success false, invokes no callback, leaves
the store untouched, and its response does not depend on the store (so no
subscription record is read or mutated), regardless of the payload. -/
theorem webhookSignatureRejection (hmacHex : String → String → String)
    (serialize : WebhookData → String) (parse : String → Option WebhookData)
    (webhookSecret signatureHeader : Option String)
    (request : Option (Option String)) (fallbackBody : WebhookData)
    (cfg : WebhookCallbacks) (users : List RzUser) (now : Nat)
    (store other : Store)
    (hbad : strOptTruthy webhookSecret = false ∨
      strOptTruthy signatureHeader = false ∨
      verifySignature hmacHex (getRawBody serialize request fallbackBody)
        (signatureHeader.getD "") (webhookSecret.getD "") = false) :
    (webhook hmacHex serialize parse webhookSecret signatureHeader request
      fallbackBody cfg users now store).success = false ∧
    (webhook hmacHex serialize parse webhookSecret signatureHeader request
      fallbackBody cfg users now store).store = store ∧
    (webhook hmacHex serialize parse webhookSecret signatureHeader request
      fallbackBody cfg users now store).invoked = [] ∧
    (webhook hmacHex serialize parse webhookSecret signatureHeader request
      fallbackBody cfg users now store).messageTag =
    (webhook hmacHex serialize parse webhookSecret signatureHeader request
      fallbackBody cfg users now other).messageTag := by
  unfold webhook
  rcases hbad with h | h | h
  · rw [if_pos (by simp [h])]
    exact ⟨rfl, rfl, rfl, by rw [if_pos (by simp [h])]⟩
  · by_cases hsec : strOptTruthy webhookSecret = true
    · rw [if_neg (by simp [hsec]), if_pos (by simp [h])]
      exact ⟨rfl, rfl, rfl, by rw [if_neg (by simp [hsec]), if_pos (by simp [h])]⟩
    · rw [if_pos (by simpa using hsec)]
      exact ⟨rfl, rfl, rfl, by rw [if_pos (by simpa using hsec)]⟩
  · by_cases hsec : strOptTruthy webhookSecret = true
    · by_cases hsig : strOptTruthy signatureHeader = true
      · rw [if_neg (by simp [hsec]), if_neg (by simp [hsig])]
        dsimp only
        rw [if_pos (by simp [h])]
        exact ⟨rfl, rfl, rfl, by
          rw [if_neg (by simp [hsec]), if_neg (by simp [hsig])]
          dsimp only
          rw [if_pos (by simp [h])]⟩
      · rw [if_neg (by simp [hsec]), if_pos (by simpa using hsig)]
        exact ⟨rfl, rfl, rfl, by
          rw [if_neg (by simp [hsec]), if_pos (by simpa using hsig)]⟩
    · rw [if_pos (by simpa using hsec)]
      exact ⟨rfl, rfl, rfl, by rw [if_pos (by simpa using hsec)]⟩

theorem webhookSignatureRejection_witness :
    (webhook (fun s m => s ++ "|" ++ m) (fun _ => "FB") (fun _ => none)
      (some "sec") (some "bad") (some (some "body")) {} {} [] 0 []).success
      = false ∧
    (webhook (fun s m => s ++ "|" ++ m) (fun _ => "FB") (fun _ => none)
      (some "sec") (some "bad") (some (some "body")) {} {} [] 0 []).invoked
      = [] := by
  have h := webhookSignatureRejection (fun s m => s ++ "|" ++ m) (fun _ => "FB")
    (fun _ => none) (some "sec") (some "bad") (some (some "body")) {} {} [] 0
    [] [] (Or.inr (Or.inr (by decide)))
  exact ⟨h.1, h.2.2.1⟩

/-- Serializer used by the C3 counterexample: a stand-in for JSON.stringify of
the framework-parsed body. -/
def c3serialize : WebhookData → String := fun _ => "RESERIALIZED"

def c3hmac : String → String → String := fun s m => s ++ "|" ++ m

/-- C3 counterexample: for a request whose raw text is the empty string, the
string handed to signature verification is the re-serialization of the
framework-parsed fallback body, not the raw request body; the endpoint then
accepts a signature computed over that re-serialization, while the signature
over the actual raw text would be rejected. -/
theorem rawBodyReserialization_counterexample :
    getRawBody c3serialize (some (some "")) {} = c3serialize {} ∧
    c3serialize {} ≠ "" ∧
    verifySignature c3hmac (getRawBody c3serialize (some (some "")) {})
      (c3hmac "sec" (c3serialize {})) "sec" = true ∧
    verifySignature c3hmac "" (c3hmac "sec" (c3serialize {})) "sec" = false := by
  refine ⟨rfl, by decide, by decide, by decide⟩

/-- C3 (amended): when the request object is present and its raw text is
readable and non-empty, that exact raw text is the string handed to both the
HMAC comparison and the envelope parse; only when the raw text is absent,
unreadable or empty does the endpoint fall back to the serialized
framework-parsed body. -/
theorem rawBodyUsedWhenPresent (hmacHex : String → String → String)
    (serialize : WebhookData → String) (parse : String → Option WebhookData)
    (secret sig : Option String) (t : String) (fallbackBody : WebhookData)
    (cfg : WebhookCallbacks) (users : List RzUser) (now : Nat) (store : Store)
    (ht : ¬ t = "")
    (hsec : strOptTruthy secret = true) (hsig : strOptTruthy sig = true) :
    getRawBody serialize (some (some t)) fallbackBody = t ∧
    webhook hmacHex serialize parse secret sig (some (some t)) fallbackBody
        cfg users now store =
      (if verifySignature hmacHex t (sig.getD "") (secret.getD "") then
        processWebhookEvent cfg users parse t fallbackBody now store
      else ⟨false, some "invalid-signature", store, []⟩) ∧
    (if t ≠ "" then parse t else some fallbackBody) = parse t := by
  have hraw : getRawBody serialize (some (some t)) fallbackBody = t := by
    unfold getRawBody
    dsimp only
    rw [if_neg (by simpa using ht)]
  refine ⟨hraw, ?_, by rw [if_pos ht]⟩
  unfold webhook
  rw [if_neg (by simp [hsec]), if_neg (by simp [hsig])]
  dsimp only
  rw [hraw]
  by_cases hv : verifySignature hmacHex t (sig.getD "") (secret.getD "") = true
  · rw [if_neg (by simp [hv]), if_pos hv]
  · rw [if_pos (by simpa using hv), if_neg hv]

theorem rawBodyUsedWhenPresent_witness :
    getRawBody c3serialize (some (some "RAW")) {} = "RAW" ∧
    (if "RAW" ≠ "" then (fun (_ : String) => (none : Option WebhookData)) "RAW"
      else some ({} : WebhookData)) = (fun (_ : String) => none) "RAW" := by
  have h := rawBodyUsedWhenPresent c3hmac c3serialize (fun _ => none)
    (some "sec") (some "sig") "RAW" {} {} [] 0 [] (by decide) (by decide) (by decide)
  exact ⟨h.1, h.2.2⟩

lemma eventRecordUpdate_rpId (event : String) (sub : SubscriptionEntity)
    (now : Nat) (r : SubscriptionRecord) :
    (eventRecordUpdate event sub now r).razorpaySubscriptionId =
      r.razorpaySubscriptionId := rfl

lemma eventRecordUpdate_refId (event : String) (sub : SubscriptionEntity)
    (now : Nat) (r : SubscriptionRecord) :
    (eventRecordUpdate event sub now r).referenceId = r.referenceId := rfl

lemma eventRecordUpdate_comp (event : String) (sub : SubscriptionEntity)
    (t1 t2 : Nat) (r : SubscriptionRecord) :
    eventRecordUpdate event sub t2 (eventRecordUpdate event sub t1 r) =
      eventRecordUpdate event sub t2 r := by
  unfold eventRecordUpdate
  by_cases hcs : natOptTruthy sub.current_start = true
  · by_cases hce : natOptTruthy sub.current_end = true
    · by_cases hev : event = "subscription.cancelled"
      · simp [hcs, hce, hev]
      · simp [hcs, hce, hev]
    · by_cases hev : event = "subscription.cancelled"
      · simp [hcs, hce, hev]
      · simp [hcs, hce, hev]
  · by_cases hce : natOptTruthy sub.current_end = true
    · by_cases hev : event = "subscription.cancelled"
      · simp [hcs, hce, hev]
      · simp [hcs, hce, hev]
    · by_cases hev : event = "subscription.cancelled"
      · simp [hcs, hce, hev]
      · simp [hcs, hce, hev]

lemma processWebhookEvent_run (cfg : WebhookCallbacks) (users : List RzUser)
    (parse : String → Option WebhookData) (rawBody : String)
    (fb : WebhookData) (now : Nat) (store : Store) (wd : WebhookData)
    (payload : WebhookPayload) (sub : SubscriptionEntity)
    (record : SubscriptionRecord)
    (hParse : (if rawBody ≠ "" then parse rawBody else some fb) = some wd)
    (hEventT : strOptTruthy wd.event = true)
    (hPayload : wd.payload = some payload)
    (hSub : payload.subscription = some sub)
    (hFind : store.find? (fun r => r.razorpaySubscriptionId == some sub.id)
      = some record)
    (hRef : ¬ record.referenceId = "")
    (hHandled : eventHandled (wd.event.getD "") = true) :
    processWebhookEvent cfg users parse rawBody fb now store =
      ⟨true, none,
        updateFirst (fun r => r.razorpaySubscriptionId == some sub.id)
          (eventRecordUpdate (wd.event.getD "") sub now) store,
        invokedCallbacks cfg users (wd.event.getD "") record⟩ := by
  unfold processWebhookEvent
  rw [hParse]
  dsimp only
  rw [if_neg (by simp [hEventT, hPayload]), hPayload]
  simp only [Option.getD_some]
  rw [hSub]
  dsimp only
  rw [hFind]
  dsimp only
  rw [if_neg (by simpa using hRef), if_neg (by simp [hHandled])]

/-- C7: delivering the same subscription.activated event twice for a linked
provider subscription id yields the same store as delivering it once; in
particular the second application at the delivery time of the first is a
no-op, and even with distinct delivery times the double application equals a
single application at the later time. -/
theorem webhookActivatedIdempotent (cfg : WebhookCallbacks) (users : List RzUser)
    (parse : String → Option WebhookData) (rawBody : String) (fb : WebhookData)
    (wd : WebhookData) (payload : WebhookPayload) (sub : SubscriptionEntity)
    (record : SubscriptionRecord) (t1 t2 : Nat) (store : Store)
    (hParse : (if rawBody ≠ "" then parse rawBody else some fb) = some wd)
    (hEvent : wd.event = some "subscription.activated")
    (hPayload : wd.payload = some payload)
    (hSub : payload.subscription = some sub)
    (hFind : store.find? (fun r => r.razorpaySubscriptionId == some sub.id)
      = some record)
    (hRef : ¬ record.referenceId = "") :
    (processWebhookEvent cfg users parse rawBody fb t2
        (processWebhookEvent cfg users parse rawBody fb t1 store).store).store
      = (processWebhookEvent cfg users parse rawBody fb t2 store).store ∧
    (processWebhookEvent cfg users parse rawBody fb t1
        (processWebhookEvent cfg users parse rawBody fb t1 store).store).store
      = (processWebhookEvent cfg users parse rawBody fb t1 store).store := by
  have hEventT : strOptTruthy wd.event = true := by rw [hEvent]; decide
  have hH : eventHandled (wd.event.getD "") = true := by rw [hEvent]; decide
  have hp : ∀ r, ((eventRecordUpdate (wd.event.getD "") sub t1 r).razorpaySubscriptionId
      == some sub.id) = (r.razorpaySubscriptionId == some sub.id) := by
    intro r
    rw [eventRecordUpdate_rpId]
  have hRef2 : ¬ (eventRecordUpdate (wd.event.getD "") sub t1 record).referenceId = "" := by
    rw [eventRecordUpdate_refId]
    exact hRef
  have hFind2 : (updateFirst (fun r => r.razorpaySubscriptionId == some sub.id)
      (eventRecordUpdate (wd.event.getD "") sub t1) store).find?
        (fun r => r.razorpaySubscriptionId == some sub.id)
      = some (eventRecordUpdate (wd.event.getD "") sub t1 record) := by
    rw [find?_updateFirst (fun r => r.razorpaySubscriptionId == some sub.id)
      (eventRecordUpdate (wd.event.getD "") sub t1) hp store, hFind]
    rfl
  have e1 := processWebhookEvent_run cfg users parse rawBody fb t1 store wd payload
    sub record hParse hEventT hPayload hSub hFind hRef hH
  have e3 := processWebhookEvent_run cfg users parse rawBody fb t2 store wd payload
    sub record hParse hEventT hPayload hSub hFind hRef hH
  have e2 := processWebhookEvent_run cfg users parse rawBody fb t2
    (updateFirst (fun r => r.razorpaySubscriptionId == some sub.id)
      (eventRecordUpdate (wd.event.getD "") sub t1) store) wd payload sub
    (eventRecordUpdate (wd.event.getD "") sub t1 record)
    hParse hEventT hPayload hSub hFind2 hRef2 hH
  have e2a := processWebhookEvent_run cfg users parse rawBody fb t1
    (updateFirst (fun r => r.razorpaySubscriptionId == some sub.id)
      (eventRecordUpdate (wd.event.getD "") sub t1) store) wd payload sub
    (eventRecordUpdate (wd.event.getD "") sub t1 record)
    hParse hEventT hPayload hSub hFind2 hRef2 hH
  constructor
  · rw [e1]
    dsimp only
    rw [e2, e3]
    dsimp only
    exact updateFirst_updateFirst _ _ _ hp
      (fun r => eventRecordUpdate_comp (wd.event.getD "") sub t1 t2 r) store
  · rw [e1]
    dsimp only
    rw [e2a]
    dsimp only
    exact updateFirst_updateFirst _ _ _ hp
      (fun r => eventRecordUpdate_comp (wd.event.getD "") sub t1 t1 r) store

/-- Concrete data for the C7 witness. -/
def c7sub : SubscriptionEntity :=
  { id := "sub_X", plan_id := "plan_m1", status := "active",
    current_start := some 100, current_end := some 200 }

def c7wd : WebhookData :=
  { event := some "subscription.activated",
    payload := some { subscription := some c7sub } }

def c7rec : SubscriptionRecord :=
  { id := "s1", plan := "Starter", referenceId := "u1",
    razorpaySubscriptionId := some "sub_X", status := .pending }

theorem webhookActivatedIdempotent_witness :
    (processWebhookEvent {} [] (fun _ => some c7wd) "RAW" {} 9
        (processWebhookEvent {} [] (fun _ => some c7wd) "RAW" {} 3
          [c7rec]).store).store
      = (processWebhookEvent {} [] (fun _ => some c7wd) "RAW" {} 9 [c7rec]).store := by
  have h := webhookActivatedIdempotent {} [] (fun _ => some c7wd) "RAW" {} c7wd
    (c7wd.payload.getD {}) c7sub c7rec 3 9 [c7rec]
    (by decide) rfl rfl rfl (by decide) (by decide)
  exact h.1

/-- The same callback configuration with every configured callback made
non-throwing. -/
def stripThrows (cfg : WebhookCallbacks) : WebhookCallbacks :=
  { cfg with
    onEvent := cfg.onEvent.map (fun _ => false)
    onSubscriptionActivated := cfg.onSubscriptionActivated.map (fun _ => false)
    onSubscriptionCancel := cfg.onSubscriptionCancel.map (fun _ => false)
    onSubscriptionUpdate := cfg.onSubscriptionUpdate.map (fun _ => false)
    onWebhookEvent := cfg.onWebhookEvent.map (fun _ => false) }

lemma invokedCallbacks_strip (cfg : WebhookCallbacks) (users : List RzUser)
    (event : String) (record : SubscriptionRecord) :
    invokedCallbacks (stripThrows cfg) users event record =
      invokedCallbacks cfg users event record := by
  unfold invokedCallbacks stripThrows
  cases cfg.onEvent <;> cases cfg.onSubscriptionActivated <;>
    cases cfg.onSubscriptionCancel <;> cases cfg.onSubscriptionUpdate <;>
    cases cfg.onWebhookEvent <;> rfl

/-- C8: for an event that passes verification, lookup and dispatch, throwing
callbacks change nothing: the endpoint behaves exactly as with the same
callbacks made non-throwing, it reports success, the applied state update is
kept, and the full fan-out (global per-event callback, the matching
activation/cancellation/update callback, the legacy payload callback) runs as
listed by invokedCallbacks independently of any throw. -/
theorem webhookCallbackErrorsSwallowed (cfg : WebhookCallbacks)
    (users : List RzUser) (parse : String → Option WebhookData)
    (rawBody : String) (fb : WebhookData) (now : Nat) (store : Store)
    (wd : WebhookData) (payload : WebhookPayload) (sub : SubscriptionEntity)
    (record : SubscriptionRecord)
    (hParse : (if rawBody ≠ "" then parse rawBody else some fb) = some wd)
    (hEventT : strOptTruthy wd.event = true)
    (hPayload : wd.payload = some payload)
    (hSub : payload.subscription = some sub)
    (hFind : store.find? (fun r => r.razorpaySubscriptionId == some sub.id)
      = some record)
    (hRef : ¬ record.referenceId = "")
    (hHandled : eventHandled (wd.event.getD "") = true) :
    (processWebhookEvent cfg users parse rawBody fb now store).success = true ∧
    (processWebhookEvent cfg users parse rawBody fb now store).store =
      updateFirst (fun r => r.razorpaySubscriptionId == some sub.id)
        (eventRecordUpdate (wd.event.getD "") sub now) store ∧
    (processWebhookEvent cfg users parse rawBody fb now store).invoked =
      invokedCallbacks cfg users (wd.event.getD "") record ∧
    processWebhookEvent cfg users parse rawBody fb now store =
      processWebhookEvent (stripThrows cfg) users parse rawBody fb now store := by
  have e := processWebhookEvent_run cfg users parse rawBody fb now store wd payload
    sub record hParse hEventT hPayload hSub hFind hRef hHandled
  have e2 := processWebhookEvent_run (stripThrows cfg) users parse rawBody fb now
    store wd payload sub record hParse hEventT hPayload hSub hFind hRef hHandled
  rw [e, e2]
  exact ⟨rfl, rfl, rfl, by rw [invokedCallbacks_strip]⟩

theorem webhookCallbackErrorsSwallowed_witness :
    (processWebhookEvent ⟨some true, true, some true, some true, some true, some true⟩
      [⟨"u1", none⟩] (fun _ => some c7wd) "RAW" {} 4 [c7rec]).success = true ∧
    (processWebhookEvent ⟨some true, true, some true, some true, some true, some true⟩
      [⟨"u1", none⟩] (fun _ => some c7wd) "RAW" {} 4 [c7rec]).invoked =
      invokedCallbacks ⟨some true, true, some true, some true, some true, some true⟩
        [⟨"u1", none⟩] (c7wd.event.getD "") c7rec := by
  have h := webhookCallbackErrorsSwallowed
    ⟨some true, true, some true, some true, some true, some true⟩
    [⟨"u1", none⟩] (fun _ => some c7wd) "RAW" {} 4 [c7rec] c7wd
    (c7wd.payload.getD {}) c7sub c7rec
    (by decide) (by decide) rfl rfl (by decide) (by decide) (by decide)
  exact ⟨h.1, h.2.2.1⟩

/-- C9: with the create-customer-on-sign-up flag set and a trial
configuration with a positive day count, a sign-up on which the provider
customer creation, the user update, the optional onCustomerCreate callback
and the record creation all succeed persists the returned customer id onto
the user record and appends exactly one subscription record, with status
trialing, trialEnd equal to now plus the configured days in milliseconds and
no provider subscription linkage; and a provider failure inside the hook is
caught, leaving both models untouched and the sign-up flow undisturbed. -/
theorem signUpHookProvisioning (t : TrialOnSignUp) (onCC : Option Bool)
    (cid newId : String) (user : SignUpUser) (now : Nat)
    (users : List RzUser) (store : Store)
    (hdays : 0 < t.days) (hcc : ¬ onCC = some true) :
    razorpayPluginSignUp true (some t) onCC (.ok cid) true true user newId now
        users store =
      (persistCustomerId user.id cid users,
        store ++ [signUpTrialRecord t user.id cid newId now]) ∧
    (signUpTrialRecord t user.id cid newId now).status = SubStatus.trialing ∧
    (signUpTrialRecord t user.id cid newId now).trialEnd
      = some (now + t.days * 86400000) ∧
    (signUpTrialRecord t user.id cid newId now).razorpaySubscriptionId = none ∧
    razorpayPluginSignUp true (some t) onCC (.error ()) true true user newId now
        users store = (users, store) := by
  refine ⟨?_, rfl, rfl, rfl, rfl⟩
  have hcc2 : (onCC == some true) = false := by simpa using hcc
  unfold razorpayPluginSignUp razorpaySignUpHook
  simp [hcc2, hdays]

theorem signUpHookProvisioning_witness :
    razorpayPluginSignUp true (some ⟨14, some "Free trial"⟩) (some false)
        (.ok "cust_1") true true ⟨"u1", some "Ann", some "a@b.c"⟩ "t1" 1000
        [⟨"u1", none⟩] [] =
      (persistCustomerId "u1" "cust_1" [⟨"u1", none⟩],
        [] ++ [signUpTrialRecord ⟨14, some "Free trial"⟩ "u1" "cust_1" "t1" 1000]) ∧
    (signUpTrialRecord ⟨14, some "Free trial"⟩ "u1" "cust_1" "t1" 1000).status
      = SubStatus.trialing ∧
    (signUpTrialRecord ⟨14, some "Free trial"⟩ "u1" "cust_1" "t1"
      1000).razorpaySubscriptionId = none := by
  have h := signUpHookProvisioning ⟨14, some "Free trial"⟩ (some false) "cust_1"
    "t1" ⟨"u1", some "Ann", some "a@b.c"⟩ 1000 [⟨"u1", none⟩] []
    (by decide) (by decide)
  exact ⟨h.1, h.2.1, h.2.2.2.1⟩

/-- Concrete data for the C10 counterexample: a halted record with a linked
provider subscription. -/
def c10rec : SubscriptionRecord :=
  { id := "s1", plan := "Starter", referenceId := "u1",
    razorpaySubscriptionId := some "sub_X", status := .halted }

/-- C10 counterexample: a record whose status, halted, lies in the live set
named by the claim (the activeStatuses of the create-or-update duplicate
check) is omitted by the list endpoint, whose own filter has no halted entry. -/
theorem listSubscriptions_counterexample :
    listSubscriptions none (some "u1") [] none [c10rec] = .ok [] ∧
    c10rec.status ∈ activeStatuses ∧
    ¬ c10rec.status ∈ ACTIVE_STATUSES := by
  refine ⟨by decide, by decide, by decide⟩

/-- C10 (amended): an authorized list call for the callers own reference
returns exactly the records of that reference whose status lies in
ACTIVE_STATUSES, that is in the set containing active, trialing, pending and
created but not halted. -/
theorem listSubscriptionsLiveFilter (authorizeReference : Option (String → String → Bool))
    (users : List RzUser) (userId : String) (store : Store) :
    ∃ subs, listSubscriptions authorizeReference (some userId) users none store
        = .ok subs ∧
      ∀ x, x ∈ subs ↔ x ∈ store ∧ x.referenceId = userId ∧
        x.status ∈ ACTIVE_STATUSES := by
  refine ⟨(store.filter (fun r => r.referenceId == userId)).filter
    (fun r => decide (r.status ∈ ACTIVE_STATUSES)), ?_, ?_⟩
  · unfold listSubscriptions
    dsimp only
    simp only [Option.getD_none]
    rw [if_neg (by simp)]
  · intro x
    constructor
    · intro hx
      obtain ⟨hx1, hx2⟩ := List.mem_filter.mp hx
      obtain ⟨hx3, hx4⟩ := List.mem_filter.mp hx1
      exact ⟨hx3, by simpa using hx4, by simpa using hx2⟩
    · intro ⟨h1, h2, h3⟩
      exact List.mem_filter.mpr ⟨List.mem_filter.mpr ⟨h1, by simpa using h2⟩,
        by simpa using h3⟩
